import Mathlib

/-!
Shallow embedding of the issue-hunter tool (src/src/main.rs): a CLI that
registers GitHub repositories, syncs their issues into a local SQL store
(kite_sql) and queries them back.  Entities (Issue, User, Label, Repo,
IssueLabelLink) are written with `insert overwrite` (upsert) statements and
deleted by primary key; the query layer filters, sorts by creation time
descending and paginates; the sync loop fetches remote pages until a
watermark cutoff is reached.

The store is modelled as five lists of rows, one per table, and each
`database.run(...)` call of the source becomes a state transformer on that
store.  `insert overwrite` replaces any row sharing the primary key (the
documented kite_sql upsert semantics the source relies on); it never fails,
so the modelled write operations are total.  Machine integers are `Nat`
(ids, page numbers) and `Int` (unix timestamps from chrono `.timestamp()`);
timestamps are modelled at second resolution, matching the single canonical
format string used by the source for both writes and reads.
-/

namespace IssueHunter

/-- The single-quote character, written via its code point so that the SQL
quoting convention can be stated without quote literals. -/
def squote : Char := Char.ofNat 39

/-- The single-quote character as a one-character string. -/
def squoteStr : String := squote.toString

/-- Character-level body of `escape_sql_string` (main.rs line 298):
`input.replace("'", "''")` doubles every single quote.  Since the pattern is
a single character, the replacement is exactly this recursion. -/
def escapeChars : List Char → List Char
  | [] => []
  | c :: cs => if c = squote then c :: c :: escapeChars cs else c :: escapeChars cs

/-- `escape_sql_string` from main.rs line 298: double every single quote. -/
def escape_sql_string (input : String) : String :=
  String.mk (escapeChars input.data)

/-- Inverse direction: how the store lexes a quoted literal body, collapsing
a doubled quote back into one quote.  Used to relate the text the program
emits to the value the store keeps. -/
def sqlUnescapeChars : List Char → List Char
  | [] => []
  | c :: cs =>
    if c = squote then
      match cs with
      | [] => [c]
      | c2 :: cs2 => if c2 = squote then c :: sqlUnescapeChars cs2 else c :: sqlUnescapeChars (c2 :: cs2)
    else c :: sqlUnescapeChars cs

/-- String-level wrapper of `sqlUnescapeChars`. -/
def sqlUnescape (s : String) : String :=
  String.mk (sqlUnescapeChars s.data)

/-- Quote scanner for command texts: walk the characters toggling an
inside-a-literal flag at each single quote (with quote doubling, a command
is lexable exactly when the scan ends outside a literal). -/
def scanQuotes : List Char → Bool → Bool
  | [], inside => !inside
  | c :: cs, inside => scanQuotes cs (if c = squote then !inside else inside)

/-- A command text is well-formed for the store's quoting convention when
its quote structure closes: the scan ends outside a string literal. -/
def sqlTextWellFormed (s : String) : Bool :=
  scanQuotes s.data false

/-- `User` entity (main.rs line 61): issue author. -/
structure User where
  id : Nat
  login : String
deriving DecidableEq

/-- `Label` entity (main.rs line 78): description is optional. -/
structure Label where
  id : Nat
  name : String
  description : Option String
deriving DecidableEq

/-- `Repo` entity (main.rs line 99): a registered repository. -/
structure Repo where
  owner_name : String
  name : String
deriving DecidableEq

/-- `Issue` entity (main.rs line 15) with its nested user and labels.
`created_at` is the unix timestamp in seconds (`DateTime<Utc>.timestamp()`). -/
structure Issue where
  id : Nat
  number : Nat
  title : String
  state : String
  repo_name : String
  user_id : Nat
  user : User
  labels : List Label
  created_at : Int
deriving DecidableEq

/-- `Repo::full_name` (main.rs line 108). -/
def Repo.full_name (r : Repo) : String :=
  r.owner_name ++ "/" ++ r.name

/-- Row of the `users` table (schema at main.rs line 448). -/
structure UserRow where
  id : Nat
  login : String
deriving DecidableEq

/-- Row of the `labels` table (schema at main.rs line 456). -/
structure LabelRow where
  id : Nat
  name : String
  description : Option String
deriving DecidableEq

/-- Row of the `repos` table (schema at main.rs line 439). -/
structure RepoRow where
  owner_name : String
  name : String
deriving DecidableEq

/-- Row of the `issues` table (schema at main.rs line 465). -/
structure IssueRow where
  id : Nat
  number : Nat
  title : String
  state : String
  repo_name : String
  user_id : Nat
  created_at : Int
deriving DecidableEq

/-- Row of the `issue_labels` association table (schema at main.rs line 478);
the whole row is its composite primary key. -/
structure LinkRow where
  issue_id : Nat
  label_id : Nat
deriving DecidableEq

/-- The relational store: the five tables created by `Client::create_table`. -/
structure Store where
  repos : List RepoRow
  users : List UserRow
  labels : List LabelRow
  issues : List IssueRow
  issue_labels : List LinkRow
deriving DecidableEq

/-- `users` row written by `User::insert` (main.rs line 210).  The login is
embedded in the command text unescaped; this row is the value stored when
the command happens to be well-formed (see `User.insertSql` for the text). -/
def User.toRow (u : User) : UserRow :=
  { id := u.id, login := u.login }

/-- The text placed in the description column position by `Label::insert`
(main.rs lines 136-139): the escaped description, or the four characters
`null` when the description is `None`.  Note the format string wraps this
position in single quotes either way, so `None` becomes a string literal,
not an SQL NULL. -/
def Label.descText (l : Label) : String :=
  match l.description with
  | some s => escape_sql_string s
  | none => "null"

/-- `labels` row written by `Label::insert` (main.rs line 130): the store
lexes each quoted literal back (`sqlUnescape`), so the stored name is the
unescape of the escaped name, and the stored description is always a
non-null string — the unescape of `Label.descText`. -/
def Label.storedRow (l : Label) : LabelRow :=
  { id := l.id
    name := sqlUnescape (escape_sql_string l.name)
    description := some (sqlUnescape l.descText) }

/-- Read direction generated by `implement_from_tuple!(Label)` (main.rs
line 85): fields are copied from the row; `description` is
`value.utf8().map(..)`, i.e. the row's optional string passed through. -/
def Label.ofRow (r : LabelRow) : Label :=
  { id := r.id, name := r.name, description := r.description }

/-- `repos` row written by `Repo::insert` (main.rs line 180); owner and name
are embedded unescaped. -/
def Repo.toRow (r : Repo) : RepoRow :=
  { owner_name := r.owner_name, name := r.name }

/-- `issues` row written by `Issue::insert` (main.rs line 231): the title is
escaped in the command and lexed back by the store (`esc_roundtrip` below
shows the two cancel, so the stored title equals the entity title); `state`
and `repo_name` are embedded unescaped; the author column is `self.user.id`;
`created_at` is formatted at second resolution. -/
def Issue.toRow (i : Issue) : IssueRow :=
  { id := i.id
    number := i.number
    title := i.title
    state := i.state
    repo_name := i.repo_name
    user_id := i.user.id
    created_at := i.created_at }

/-- One store write emitted by the persistence adapter. -/
inductive WriteOp
  | issueRow (r : IssueRow)
  | userUp (r : UserRow)
  | labelUp (r : LabelRow)
  | linkUp (r : LinkRow)
deriving DecidableEq

/-- Semantics of one `insert overwrite` statement: replace any row sharing
the primary key, then append the new row.  Never fails (conflict is the
expected case). -/
def applyOp (db : Store) : WriteOp → Store
  | .issueRow r => { db with issues := db.issues.filter (fun x => x.id ≠ r.id) ++ [r] }
  | .userUp r => { db with users := db.users.filter (fun x => x.id ≠ r.id) ++ [r] }
  | .labelUp r => { db with labels := db.labels.filter (fun x => x.id ≠ r.id) ++ [r] }
  | .linkUp r =>
    { db with issue_labels :=
        db.issue_labels.filter (fun x => ¬(x.issue_id = r.issue_id ∧ x.label_id = r.label_id)) ++ [r] }

/-- The two writes `Issue::insert` performs per attached label (main.rs
lines 245-252): the `IssueLabelLink` upsert first, then the `Label` upsert. -/
def labelOps (iid : Nat) (l : Label) : List WriteOp :=
  [WriteOp.linkUp { issue_id := iid, label_id := l.id }, WriteOp.labelUp l.storedRow]

/-- The ordered write sequence of the compound `Issue::insert` (main.rs
line 231): the issue row, then the embedded user upsert, then per label the
link upsert followed by the label upsert. -/
def Issue.insertTrace (i : Issue) : List WriteOp :=
  WriteOp.issueRow i.toRow :: WriteOp.userUp i.user.toRow ::
    i.labels.flatMap (labelOps i.id)

/-- Modelled from the spec: the write order the specification states for the
compound issue insert — issue row, then user, then for each label the Label
upsert followed by the IssueLabelLink upsert.  Defined for comparison with
`Issue.insertTrace`, which is translated from the source. -/
def Issue.specInsertTrace (i : Issue) : List WriteOp :=
  WriteOp.issueRow i.toRow :: WriteOp.userUp i.user.toRow ::
    i.labels.flatMap (fun l =>
      [WriteOp.labelUp l.storedRow, WriteOp.linkUp { issue_id := i.id, label_id := l.id }])

/-- `User::insert` (main.rs line 210). -/
def User.insert (u : User) (db : Store) : Store :=
  applyOp db (WriteOp.userUp u.toRow)

/-- `Label::insert` (main.rs line 130). -/
def Label.insert (l : Label) (db : Store) : Store :=
  applyOp db (WriteOp.labelUp l.storedRow)

/-- `Repo::insert` (main.rs line 180). -/
def Repo.insert (r : Repo) (db : Store) : Store :=
  { db with repos :=
      (db.repos.filter fun x => ¬(x.owner_name = r.owner_name ∧ x.name = r.name)) ++ [r.toRow] }

/-- Compound `Issue::insert` (main.rs line 231): apply the write trace. -/
def Issue.insert (i : Issue) (db : Store) : Store :=
  i.insertTrace.foldl applyOp db

/-- `Issue::delete` (main.rs line 257): delete the issues row by id, then
delete the issue_labels rows carrying that issue id. -/
def Issue.delete (i : Issue) (db : Store) : Store :=
  let db1 := { db with issues := db.issues.filter (fun x => x.id ≠ i.id) }
  { db1 with issue_labels := db1.issue_labels.filter (fun x => x.issue_id ≠ i.id) }

/-- `Repo::delete` (main.rs line 191): delete the repos row by its composite
key, then delete every issues row whose `repo_name` equals the full name. -/
def Repo.delete (r : Repo) (db : Store) : Store :=
  let db1 := { db with repos :=
      (db.repos.filter fun x => ¬(x.owner_name = r.owner_name ∧ x.name = r.name)) }
  { db1 with issues := db1.issues.filter (fun x => x.repo_name ≠ r.full_name) }

/-- The command text built by `User::insert` (main.rs lines 212-215): the
id, then the login wrapped in single quotes — the login is embedded without
`escape_sql_string`. -/
def User.insertSql (u : User) : String :=
  "insert overwrite users values(" ++ toString u.id ++ ", " ++ squoteStr
    ++ u.login ++ squoteStr ++ ");"

/-- SQL LIKE matching used by the `repo_name like '{pattern}'` filter
(main.rs line 496): percent matches any sequence, underscore any single
character, every other pattern character matches itself. -/
def likeMatch : List Char → List Char → Bool
  | [], [] => true
  | [], _ :: _ => false
  | p :: ps, [] => p = Char.ofNat 37 && likeMatch ps []
  | p :: ps, c :: ss =>
    if p = Char.ofNat 37 then likeMatch ps (c :: ss) || likeMatch (p :: ps) ss
    else (p = Char.ofNat 95 || p = c) && likeMatch ps ss
termination_by ps s => ps.length + s.length

/-- String-level LIKE. -/
def likeMatchStr (pattern s : String) : Bool :=
  likeMatch pattern.data s.data

/-- `FetchArgs` (main.rs line 419).  `create_after` is the optional cutoff
timestamp (seconds); `page` and `page_num` are the clap `usize` arguments
(defaults 1 and 10). -/
structure FetchArgs where
  repo_name : Option String
  create_after : Option Int
  today : Bool
  label_name : Option String
  page : Nat
  page_num : Nat
deriving DecidableEq

/-- The `order by created_at desc` step of the issue query: sort rows by
creation timestamp, newest first. -/
def sortDesc (l : List IssueRow) : List IssueRow :=
  List.insertionSort (fun a b => b.created_at ≤ a.created_at) l

/-- Rust `usize` subtraction with overflow checking: `none` models the
abnormal termination (debug-build panic) on underflow. -/
def usizeSub (a b : Nat) : Option Nat :=
  if b ≤ a then some (a - b) else none

/-- Rust `usize` wrapping subtraction (release build): two's-complement wrap
at 2^64. -/
def usizeSubWrap (a b : Nat) : Nat :=
  (a + (2 ^ 64 - b)) % 2 ^ 64

/-- The offset computation of `fetch_issues` (main.rs line 536):
`(args.page - 1) * args.page_num`, with the `usize` subtraction checked and
the multiplication left on unbounded naturals.  This is the arithmetic the
query model `fetch_issues` slices with; the fully `usize`-checked
computation is `fetchOffsetUsize` below, and the two agree whenever the
product stays below 2^64 (proved with the offset lemmas). -/
def fetchOffset (page page_num : Nat) : Option Nat :=
  (usizeSub page 1).map (fun k => k * page_num)

/-- Rust `usize` multiplication with overflow checking: `none` models the
abnormal termination (debug-build panic) on overflow. -/
def usizeMul (a b : Nat) : Option Nat :=
  if a * b < 2 ^ 64 then some (a * b) else none

/-- Rust `usize` wrapping multiplication (release build): the product
reduced at 2^64. -/
def usizeMulWrap (a b : Nat) : Nat :=
  (a * b) % 2 ^ 64

/-- The source's offset computation `(args.page - 1) * args.page_num`
(main.rs line 536) with both `usize` operations checked: the subtraction
and the multiplication each model the debug-build panic as `none`. -/
def fetchOffsetUsize (page page_num : Nat) : Option Nat :=
  (usizeSub page 1).bind (fun k => usizeMul k page_num)

/-- Error kinds an operation can return (spec section 7).  The modelled
store never fails, so no modelled operation produces `storeError`; the
constructors exist to state which outcome an operation yields. -/
inductive ErrorKind
  | notFoundError
  | storeError
deriving DecidableEq

/-- Outcome of a fallible operation: a returned value, a returned error
(the `Err` arm of the Rust `Result`), or a process-aborting panic carrying
its message. -/
inductive Outcome (α : Type)
  | ok (val : α)
  | err (e : ErrorKind)
  | panicked (msg : String)
deriving DecidableEq

/-- The panic message of the missing-label lookup (main.rs line 517). -/
def labelNotFoundMsg (name : String) : String :=
  "Label: " ++ squoteStr ++ name ++ squoteStr ++ " not Found"

/-- The standard Rust debug-build message for the underflow at main.rs
line 536. -/
def subOverflowMsg : String :=
  "attempt to subtract with overflow"

/-- Query building and execution of `Client::fetch_issues` (main.rs
lines 489-540) up to the order-by: conjunctive filters in source order —
optional `repo_name like`, optional `created_at >` (the `today` flag
replaces `create_after` by `todayStart`, the start of the current UTC day),
optional label filter (look up the label id by name, panicking when absent
— modelled as `none` — then keep issues whose id carries a link to it).
`page`/`page_num` are not read here. -/
def queryFiltered (db : Store) (args : FetchArgs) (todayStart : Int) : Option (List IssueRow) :=
  let l1 := match args.repo_name with
    | some pat => db.issues.filter (fun i => likeMatchStr pat i.repo_name)
    | none => db.issues
  let ca := if args.today then some todayStart else args.create_after
  let l2 := match ca with
    | some t => l1.filter (fun i => t < i.created_at)
    | none => l1
  match args.label_name with
  | none => some l2
  | some lname =>
    match db.labels.find? (fun l => l.name = lname) with
    | none => none
    | some lab =>
      let ids := (db.issue_labels.filter (fun r => r.label_id = lab.id)).map LinkRow.issue_id
      some (l2.filter (fun i => ids.contains i.id))

/-- The filtered rows of `queryFiltered` ordered newest-first by the
`order by created_at desc` clause. -/
def queryRows (db : Store) (args : FetchArgs) (todayStart : Int) : Option (List IssueRow) :=
  (queryFiltered db args todayStart).map sortDesc

/-- `Client::fetch_issues` (main.rs line 489): the filtered, sorted rows
sliced by `limit page_num offset (page - 1) * page_num`.  The missing-label
panic happens while the query text is built, hence before the offset
computation can underflow. -/
def fetch_issues (db : Store) (args : FetchArgs) (todayStart : Int) : Outcome (List IssueRow) :=
  match queryRows db args todayStart with
  | none => Outcome.panicked (labelNotFoundMsg (args.label_name.getD ""))
  | some l =>
    match fetchOffset args.page args.page_num with
    | none => Outcome.panicked subOverflowMsg
    | some off => Outcome.ok ((l.drop off).take args.page_num)

/-- The `while` guard of the sync loop (main.rs line 566): keep fetching
while no timestamp has been observed or the oldest observed one is still
newer than the cutoff. -/
def oldestAbove : Option Int → Int → Bool
  | none, _ => true
  | some t, cutoff => cutoff < t

/-- The per-issue watermark update (main.rs lines 591-597): first timestamp
is taken as-is, afterwards the minimum is kept. -/
def updOldest (o : Option Int) (t : Int) : Option Int :=
  match o with
  | none => some t
  | some x => some (min t x)

/-- The per-repository loop body of `Client::update_issues` (main.rs
lines 556-599), with explicit fuel.  `remote` maps a page number to the
issues the API returns for it; `page` is the page number the source
requests — the source binds `let page = 1` and never updates it, so the
recursive call passes `page` through unchanged.  Each fetched issue is
stamped with the repository full name and persisted via the compound
`Issue.insert`, while the running minimum creation timestamp is updated.
Returns the list of requested page numbers and, when the guard turned false
within the given fuel, the resulting store (`none` means the loop was still
running when the fuel ran out). -/
def update_issues_loop (remote : Nat → List Issue) (repoFull : String) (cutoff : Int)
    (page : Nat) : Nat → Option Int → Store → List Nat × Option Store
  | 0, oldest, db =>
    if oldestAbove oldest cutoff then ([], none) else ([], some db)
  | fuel + 1, oldest, db =>
    if oldestAbove oldest cutoff then
      let issues := (remote page).map (fun i => { i with repo_name := repoFull })
      let st := issues.foldl
        (fun (p : Store × Option Int) i => (Issue.insert i p.1, updOldest p.2 i.created_at))
        (db, oldest)
      let res := update_issues_loop remote repoFull cutoff page fuel st.2 st.1
      (page :: res.1, res.2)
    else ([], some db)

/-! Concrete values used by counterexamples and witnesses. -/

/-- The empty store (all five tables empty). -/
def emptyStore : Store :=
  { repos := [], users := [], labels := [], issues := [], issue_labels := [] }

/-- A concrete user. -/
def user1 : User := { id := 1, login := "alice" }

/-- A concrete repository. -/
def repo1 : Repo := { owner_name := "o", name := "r" }

/-- A concrete label with no description. -/
def label9 : Label := { id := 7, name := "bug", description := none }

/-- A concrete issue created at unix second 100, with no labels. -/
def issue100 : Issue :=
  { id := 1, number := 1, title := "a", state := "open", repo_name := ""
    user_id := 0, user := user1, labels := [], created_at := 100 }

/-- A concrete issue created at unix second 10. -/
def issue10 : Issue :=
  { issue100 with id := 2, number := 2, created_at := 10 }

/-- A synthetic remote source with strictly descending per-page minimum
creation timestamps: page 1 holds the issue created at 100, page 2 the one
created at 10, later pages are empty. -/
def remoteStuck : Nat → List Issue :=
  fun n => if n = 1 then [issue100] else if n = 2 then [issue10] else []

/-- A login containing a single quote, as a public GitHub API response could
supply. -/
def loginBad : String := "o" ++ squoteStr ++ "x"

/-- The issue from `issue100` carrying one attached label. -/
def i9 : Issue := { issue100 with labels := [label9] }

/-- A store holding one issue row and one issue-label link row for it. -/
def db6 : Store :=
  { emptyStore with
      issues := [{ id := 1, number := 1, title := "t", state := "open"
                   repo_name := "o/r", user_id := 1, created_at := 5 }]
      issue_labels := [{ issue_id := 1, label_id := 2 }] }

/-- Fetch arguments filtering on a label name that exists in no store used
with them. -/
def args7 : FetchArgs :=
  { repo_name := none, create_after := none, today := false
    label_name := some "bug", page := 1, page_num := 10 }

/-- An issue row created at unix second 5. -/
def rowA : IssueRow :=
  { id := 1, number := 1, title := "a", state := "open", repo_name := "o/r"
    user_id := 1, created_at := 5 }

/-- An issue row created at unix second 3. -/
def rowB : IssueRow := { rowA with id := 2, created_at := 3 }

/-- An issue row created at unix second 9. -/
def rowC : IssueRow := { rowA with id := 3, created_at := 9 }

/-- A store holding three issue rows with distinct creation times. -/
def db8 : Store := { emptyStore with issues := [rowA, rowB, rowC] }

/-- Filterless fetch arguments. -/
def args8 : FetchArgs :=
  { repo_name := none, create_after := none, today := false
    label_name := none, page := 1, page_num := 10 }

/-! Helper lemmas. -/

/-- Unfolding lemma: a non-quote head character passes through the lexer. -/
theorem sqlUnescape_cons_ne (c : Char) (h : ¬ c = squote) (cs : List Char) :
    sqlUnescapeChars (c :: cs) = c :: sqlUnescapeChars cs := by
  cases cs with
  | nil => simp [sqlUnescapeChars, h]
  | cons c2 cs2 => simp [sqlUnescapeChars, h]

/-- Unfolding lemma: a doubled quote lexes to a single quote. -/
theorem sqlUnescape_cons_quote (cs : List Char) :
    sqlUnescapeChars (squote :: squote :: cs) = squote :: sqlUnescapeChars cs := by
  simp [sqlUnescapeChars]

/-- The store's literal lexing inverts `escape_sql_string` character-wise. -/
theorem unescape_escape (cl : List Char) : sqlUnescapeChars (escapeChars cl) = cl := by
  induction cl with
  | nil => rfl
  | cons c cs ih =>
    by_cases h : c = squote
    · subst h
      rw [show escapeChars (squote :: cs) = squote :: squote :: escapeChars cs by
        simp [escapeChars]]
      rw [sqlUnescape_cons_quote, ih]
    · rw [show escapeChars (c :: cs) = c :: escapeChars cs by simp [escapeChars, h]]
      rw [sqlUnescape_cons_ne c h, ih]

/-- Escaping a string and lexing it back yields the original string: the
escaping discipline loses no data. -/
theorem esc_roundtrip (s : String) : sqlUnescape (escape_sql_string s) = s := by
  cases s with
  | mk data => simp [sqlUnescape, escape_sql_string, unescape_escape]

/-- Upserting a row keyed by `key` and then filtering for that key yields
exactly the upserted row. -/
theorem filter_key_upsert {α β : Type} [DecidableEq β] (key : α → β) (l : List α) (x : α) :
    ((l.filter fun y => key y ≠ key x) ++ [x]).filter (fun y => key y = key x) = [x] := by
  rw [List.filter_append]
  have h1 : (l.filter fun y => key y ≠ key x).filter (fun y => key y = key x) = [] := by
    rw [List.filter_eq_nil_iff]
    intro a ha
    have h2 := (List.mem_filter.mp ha).2
    simp only [decide_eq_true_eq] at h2 ⊢
    exact h2
  rw [h1]
  simp

/-- Composite-key version of `filter_key_upsert` for two key projections. -/
theorem filter_key2_upsert {α β γ : Type} [DecidableEq β] [DecidableEq γ]
    (k1 : α → β) (k2 : α → γ) (l : List α) (x : α) :
    ((l.filter fun y => ¬(k1 y = k1 x ∧ k2 y = k2 x)) ++ [x]).filter
        (fun y => k1 y = k1 x ∧ k2 y = k2 x) = [x] := by
  rw [List.filter_append]
  have h1 : (l.filter fun y => ¬(k1 y = k1 x ∧ k2 y = k2 x)).filter
      (fun y => k1 y = k1 x ∧ k2 y = k2 x) = [] := by
    rw [List.filter_eq_nil_iff]
    intro a ha
    have h2 := (List.mem_filter.mp ha).2
    simp only [decide_eq_true_eq] at h2 ⊢
    exact h2
  rw [h1]
  simp

/-- Filtering for a predicate after filtering for its negation yields
nothing. -/
theorem filter_after_filter_not {α : Type} (p : α → Prop) [DecidablePred p] (l : List α) :
    ((l.filter fun y => ¬ p y).filter fun y => p y) = [] := by
  rw [List.filter_eq_nil_iff]
  intro a ha
  have h2 := (List.mem_filter.mp ha).2
  simp only [decide_eq_true_eq] at h2 ⊢
  exact h2

/-- The per-label writes never touch the `issues` table. -/
theorem labelOps_foldl_issues (iid : Nat) (ls : List Label) :
    ∀ db : Store, ((ls.flatMap (labelOps iid)).foldl applyOp db).issues = db.issues := by
  induction ls with
  | nil => intro db; rfl
  | cons a as ih =>
    intro db
    rw [List.flatMap_cons, List.foldl_append]
    rw [ih]
    rfl

/-- Effect of the compound `Issue.insert` on the `issues` table alone: the
upsert of the issue row (the user and label writes leave it unchanged). -/
theorem Issue.insert_issues (i : Issue) (db : Store) :
    (Issue.insert i db).issues = (db.issues.filter fun x => x.id ≠ i.toRow.id) ++ [i.toRow] := by
  unfold Issue.insert Issue.insertTrace
  rw [List.foldl_cons, List.foldl_cons, labelOps_foldl_issues]
  rfl

/-- Ceiling-division recurrence used to peel one page off the front. -/
theorem ceil_div_step (m P : Nat) (hm : 0 < m) (hP : 0 < P) :
    (m + P - 1) / P = ((m - P) + P - 1) / P + 1 := by
  rcases le_or_lt P m with hc | hc
  · have he : m + P - 1 = ((m - P) + P - 1) + P := by omega
    rw [he, Nat.add_div_right _ hP]
  · have h1 : m - P = 0 := by omega
    rw [h1]
    have h2 : (m + P - 1) / P = 1 := by
      apply Nat.div_eq_of_lt_le <;> omega
    have h3 : (0 + P - 1) / P = 0 := by
      apply Nat.div_eq_of_lt; omega
    omega

/-- Concatenating the 1-indexed size-`P` windows `drop (k * P) / take P`
for `k` below `ceil (length / P)` reproduces the whole list. -/
theorem join_chunks {α : Type} (P : Nat) (hP : 0 < P) :
    ∀ (n : Nat) (l : List α), l.length ≤ n →
      ((List.range ((l.length + P - 1) / P)).map fun k => (l.drop (k * P)).take P).flatten = l := by
  intro n
  induction n with
  | zero =>
    intro l hl
    have hnil : l = [] := List.length_eq_zero.mp (Nat.le_zero.mp hl)
    subst hnil
    simp
  | succ n ih =>
    intro l hl
    rcases eq_or_ne l [] with rfl | hne
    · simp
    · have hlen : 0 < l.length := List.length_pos.mpr hne
      rw [ceil_div_step l.length P hlen hP]
      rw [List.range_succ_eq_map, List.map_cons, List.map_map, List.flatten_cons]
      have h0 : (l.drop (0 * P)).take P = l.take P := by simp
      rw [h0]
      have hmap : List.map ((fun k => (l.drop (k * P)).take P) ∘ Nat.succ)
            (List.range (((l.length - P) + P - 1) / P))
          = List.map (fun k => ((l.drop P).drop (k * P)).take P)
            (List.range (((l.length - P) + P - 1) / P)) := by
        apply List.map_congr_left
        intro a _
        have he : Nat.succ a * P = P + a * P := by
          rw [Nat.succ_mul]; omega
        simp [Function.comp, List.drop_drop, he]
      rw [hmap]
      have hlen2 : (l.drop P).length ≤ n := by
        rw [List.length_drop]; omega
      have hrec := ih (l.drop P) hlen2
      rw [List.length_drop] at hrec
      rw [hrec]
      exact List.take_append_drop P l

instance : IsTotal IssueRow (fun a b => b.created_at ≤ a.created_at) :=
  ⟨fun a b => le_total b.created_at a.created_at⟩

instance : IsTrans IssueRow (fun a b => b.created_at ≤ a.created_at) :=
  ⟨fun _ _ _ hab hbc => le_trans hbc hab⟩

/-- The order-by step really sorts by creation time descending. -/
theorem sortDesc_sorted (l : List IssueRow) :
    List.Sorted (fun a b => b.created_at ≤ a.created_at) (sortDesc l) :=
  List.sorted_insertionSort _ l

/-- Any successful query result is sorted by creation time descending. -/
theorem queryRows_sorted {db : Store} {args : FetchArgs} {t : Int} {l : List IssueRow}
    (h : queryRows db args t = some l) :
    List.Sorted (fun a b => b.created_at ≤ a.created_at) l := by
  unfold queryRows at h
  rcases Option.map_eq_some'.mp h with ⟨m, _, rfl⟩
  exact sortDesc_sorted m

/-- The query text before the limit/offset clause does not depend on the
page arguments. -/
theorem queryRows_page_irrel (db : Store) (args : FetchArgs) (t : Int) (p P : Nat) :
    queryRows db { args with page := p, page_num := P } t = queryRows db args t := rfl

/-- `fetch_issues` at page `k + 1` with page size `P` returns the window of
the full result at offset `k * P`. -/
theorem fetch_issues_page (db : Store) (args : FetchArgs) (t : Int) (l : List IssueRow)
    (h : queryRows db args t = some l) (k P : Nat) :
    fetch_issues db { args with page := k + 1, page_num := P } t
      = Outcome.ok ((l.drop (k * P)).take P) := by
  unfold fetch_issues
  rw [queryRows_page_irrel, h]
  have hoff : fetchOffset (k + 1) P = some (k * P) := by
    simp [fetchOffset, usizeSub]
  simp only [hoff]

/-- A link row present in the store stays present across any write
(link upserts with the same composite key replace it by an equal row). -/
theorem applyOp_link_mem (db : Store) (op : WriteOp) (lk : LinkRow)
    (h : lk ∈ db.issue_labels) : lk ∈ (applyOp db op).issue_labels := by
  cases op with
  | linkUp r =>
    by_cases he : lk = r
    · subst he
      simp [applyOp]
    · simp only [applyOp, List.mem_append, List.mem_filter]
      left
      refine ⟨h, ?_⟩
      simp only [decide_eq_true_eq]
      intro hc
      apply he
      cases lk
      cases r
      simp_all
  | issueRow r => exact h
  | userUp r => exact h
  | labelUp r => exact h

/-- The presence of some label row with a given id is preserved by any
write. -/
theorem applyOp_labelid_mem (db : Store) (op : WriteOp) (x : Nat)
    (h : ∃ r ∈ db.labels, r.id = x) : ∃ r ∈ (applyOp db op).labels, r.id = x := by
  cases op with
  | labelUp m =>
    by_cases he : x = m.id
    · exact ⟨m, by simp [applyOp], he.symm⟩
    · obtain ⟨r, hr, hid⟩ := h
      refine ⟨r, ?_, hid⟩
      simp only [applyOp, List.mem_append, List.mem_filter]
      left
      refine ⟨hr, ?_⟩
      simp only [decide_eq_true_eq]
      rw [hid]
      exact he
  | issueRow r => exact h
  | userUp r => exact h
  | linkUp r => exact h

/-- Link-row presence is preserved along any write sequence. -/
theorem foldl_link_mem (ops : List WriteOp) :
    ∀ (db : Store) (lk : LinkRow), lk ∈ db.issue_labels →
      lk ∈ (ops.foldl applyOp db).issue_labels := by
  induction ops with
  | nil => intro db lk h; exact h
  | cons op ops ih =>
    intro db lk h
    rw [List.foldl_cons]
    exact ih _ lk (applyOp_link_mem db op lk h)

/-- Presence of a label row with a given id is preserved along any write
sequence. -/
theorem foldl_labelid_mem (ops : List WriteOp) :
    ∀ (db : Store) (x : Nat), (∃ r ∈ db.labels, r.id = x) →
      ∃ r ∈ (ops.foldl applyOp db).labels, r.id = x := by
  induction ops with
  | nil => intro db x h; exact h
  | cons op ops ih =>
    intro db x h
    rw [List.foldl_cons]
    exact ih _ x (applyOp_labelid_mem db op x h)

/-- After the per-label write sequence of the compound issue insert, every
attached label has its link row present and a label row with its id. -/
theorem labels_post (iid : Nat) (ls : List Label) :
    ∀ (db : Store) (l : Label), l ∈ ls →
      ({ issue_id := iid, label_id := l.id } : LinkRow)
          ∈ ((ls.flatMap (labelOps iid)).foldl applyOp db).issue_labels
        ∧ ∃ r ∈ ((ls.flatMap (labelOps iid)).foldl applyOp db).labels, r.id = l.id := by
  induction ls with
  | nil => intro db l hl; exact absurd hl (List.not_mem_nil l)
  | cons a as ih =>
    intro db l hl
    rw [List.flatMap_cons, List.foldl_append]
    rcases List.mem_cons.mp hl with rfl | hmem
    · constructor
      · apply foldl_link_mem
        show ({ issue_id := iid, label_id := l.id } : LinkRow)
            ∈ (applyOp (applyOp db (WriteOp.linkUp { issue_id := iid, label_id := l.id }))
                (WriteOp.labelUp l.storedRow)).issue_labels
        apply applyOp_link_mem
        simp [applyOp]
      · apply foldl_labelid_mem
        show ∃ r ∈ (applyOp (applyOp db (WriteOp.linkUp { issue_id := iid, label_id := l.id }))
            (WriteOp.labelUp l.storedRow)).labels, r.id = l.id
        exact ⟨l.storedRow, by simp [applyOp], rfl⟩
    · exact ih _ l hmem

/-- Invariant step for the stuck sync loop: once the watermark is the
timestamp of page 1 (100, above the cutoff 50), every further iteration
refetches page 1 and leaves the watermark at 100. -/
theorem c1_loop_stuck_aux :
    ∀ (fuel : Nat) (db : Store),
      update_issues_loop remoteStuck "o/r" 50 1 fuel (some 100) db
        = (List.replicate fuel 1, none) := by
  intro fuel
  induction fuel with
  | zero => intro db; rfl
  | succ n ih =>
    intro db
    rw [update_issues_loop]
    rw [if_pos (by decide : oldestAbove (some 100) 50 = true)]
    show (1 :: (update_issues_loop remoteStuck "o/r" 50 1 n (some 100)
          (Issue.insert { issue100 with repo_name := "o/r" } db)).1,
        (update_issues_loop remoteStuck "o/r" 50 1 n (some 100)
          (Issue.insert { issue100 with repo_name := "o/r" } db)).2)
      = (List.replicate (n + 1) 1, none)
    rw [ih]
    simp [List.replicate_succ]

/-! Claim theorems. -/

/-- C1 — the code violates the claim.  `update_issues` binds `let page = 1`
and never increments it, so against the synthetic remote source
`remoteStuck` (page 1 minimum timestamp 100, page 2 minimum 10, cutoff 50)
the sync loop requests page 1 at every iteration and never terminates: for
every fuel the loop is still running (`none`) and the requested-page trace
is `[1, 1, ...]` — page 2, which the claim says would be fetched next and
would terminate the pass, is never requested. -/
theorem c1_sync_loop_stuck_on_page_one :
    ∀ (fuel : Nat) (db : Store),
      update_issues_loop remoteStuck "o/r" 50 1 fuel none db
        = (List.replicate fuel 1, none) := by
  intro fuel db
  cases fuel with
  | zero => rfl
  | succ n =>
    rw [update_issues_loop]
    rw [if_pos (by decide : oldestAbove none 50 = true)]
    show (1 :: (update_issues_loop remoteStuck "o/r" 50 1 n (some 100)
          (Issue.insert { issue100 with repo_name := "o/r" } db)).1,
        (update_issues_loop remoteStuck "o/r" 50 1 n (some 100)
          (Issue.insert { issue100 with repo_name := "o/r" } db)).2)
      = (List.replicate (n + 1) 1, none)
    rw [c1_loop_stuck_aux]
    simp [List.replicate_succ]

/-- C2 — the code violates the claim.  `User::insert` embeds the login into
the command text without `escape_sql_string`: for a login containing a
single quote the generated command is not well-formed against the store's
quoting convention, while the escaped embedding the claim mandates would
be; the two texts differ. -/
theorem c2_user_login_not_escaped :
    sqlTextWellFormed (User.insertSql { id := 1, login := loginBad }) = false
    ∧ sqlTextWellFormed ("insert overwrite users values(1, " ++ squoteStr
        ++ escape_sql_string loginBad ++ squoteStr ++ ");") = true
    ∧ User.insertSql { id := 1, login := loginBad }
        ≠ "insert overwrite users values(1, " ++ squoteStr
            ++ escape_sql_string loginBad ++ squoteStr ++ ");" := by
  refine ⟨?_, ?_, ?_⟩ <;> decide

/-- C3: upserting two entities with the same primary key (for each of
Issue, User, Label, Repo) leaves exactly one row for that key, equal to the
row of the second write.  The modelled `insert overwrite` is total, so the
second upsert cannot error on the conflict. -/
theorem c3_upsert_idempotent (db : Store) (i1 i2 : Issue) (_hI : i1.id = i2.id)
    (u1 u2 : User) (_hU : u1.id = u2.id) (l1 l2 : Label) (_hL : l1.id = l2.id)
    (r1 r2 : Repo) (_hR : r1.owner_name = r2.owner_name ∧ r1.name = r2.name) :
    ((Issue.insert i2 (Issue.insert i1 db)).issues.filter fun x => x.id = i2.id) = [i2.toRow]
    ∧ ((User.insert u2 (User.insert u1 db)).users.filter fun x => x.id = u2.id) = [u2.toRow]
    ∧ ((Label.insert l2 (Label.insert l1 db)).labels.filter fun x => x.id = l2.id)
        = [l2.storedRow]
    ∧ ((Repo.insert r2 (Repo.insert r1 db)).repos.filter
        fun x => x.owner_name = r2.owner_name ∧ x.name = r2.name) = [r2.toRow] := by
  refine ⟨?_, ?_, ?_, ?_⟩
  · rw [Issue.insert_issues]
    exact filter_key_upsert (fun r : IssueRow => r.id) _ i2.toRow
  · exact filter_key_upsert (fun r : UserRow => r.id) _ u2.toRow
  · exact filter_key_upsert (fun r : LabelRow => r.id) _ l2.storedRow
  · exact filter_key2_upsert (fun r : RepoRow => r.owner_name)
      (fun r : RepoRow => r.name) _ r2.toRow

/-- Witness for C3 at concrete entities sharing keys but differing in the
non-key fields. -/
theorem c3_upsert_idempotent_witness :
    issue100.id = ({ issue100 with title := "b", state := "closed" } : Issue).id
    ∧ user1.id = ({ user1 with login := "al2" } : User).id
    ∧ label9.id = ({ label9 with name := "feature" } : Label).id
    ∧ (repo1.owner_name = repo1.owner_name ∧ repo1.name = repo1.name)
    ∧ (((Issue.insert { issue100 with title := "b", state := "closed" }
          (Issue.insert issue100 emptyStore)).issues.filter
            fun x => x.id = ({ issue100 with title := "b", state := "closed" } : Issue).id)
        = [({ issue100 with title := "b", state := "closed" } : Issue).toRow]
      ∧ ((User.insert { user1 with login := "al2" }
            (User.insert user1 emptyStore)).users.filter
              fun x => x.id = ({ user1 with login := "al2" } : User).id)
          = [({ user1 with login := "al2" } : User).toRow]
      ∧ ((Label.insert { label9 with name := "feature" }
            (Label.insert label9 emptyStore)).labels.filter
              fun x => x.id = ({ label9 with name := "feature" } : Label).id)
          = [({ label9 with name := "feature" } : Label).storedRow]
      ∧ ((Repo.insert repo1 (Repo.insert repo1 emptyStore)).repos.filter
            fun x => x.owner_name = repo1.owner_name ∧ x.name = repo1.name)
          = [repo1.toRow]) :=
  ⟨rfl, rfl, rfl, ⟨rfl, rfl⟩,
    c3_upsert_idempotent emptyStore issue100 { issue100 with title := "b", state := "closed" }
      rfl user1 { user1 with login := "al2" } rfl label9 { label9 with name := "feature" } rfl
      repo1 repo1 ⟨rfl, rfl⟩⟩

/-- C4: removing a repository deletes its repos row and every issue row
carrying its full name, and leaves the users, labels and issue_labels
tables completely unchanged. -/
theorem c4_repo_delete_cascade_frame (db : Store) (r : Repo) :
    ((Repo.delete r db).issues.filter fun x => x.repo_name = r.full_name) = []
    ∧ ((Repo.delete r db).repos.filter
        fun x => x.owner_name = r.owner_name ∧ x.name = r.name) = []
    ∧ (Repo.delete r db).users = db.users
    ∧ (Repo.delete r db).labels = db.labels
    ∧ (Repo.delete r db).issue_labels = db.issue_labels :=
  ⟨filter_after_filter_not (fun x : IssueRow => x.repo_name = r.full_name) db.issues,
   filter_after_filter_not
     (fun x : RepoRow => x.owner_name = r.owner_name ∧ x.name = r.name) db.repos,
   rfl, rfl, rfl⟩

/-- C5 — the code violates the claim.  `Label::insert` wraps the
description position in quotes even when the description is `None`, storing
the literal string made of the characters n, u, l, l; reading the row back
through the `implement_from_tuple!` mapping therefore yields
`some "null"`, not `none`. -/
theorem c5_label_none_description_roundtrip :
    Label.ofRow (Label.storedRow { id := 5, name := "bug", description := none })
        = { id := 5, name := "bug", description := some "null" }
    ∧ Label.ofRow (Label.storedRow { id := 5, name := "bug", description := none })
        ≠ { id := 5, name := "bug", description := none } := by
  refine ⟨?_, ?_⟩ <;> decide

/-- C6 counterexample — the claim as stated is false on the code.  On a
store holding an issue row with id 1 and a link row for issue id 1,
`Issue::delete` of that issue changes the issue_labels table (the claim
says the delete leaves it unchanged). -/
theorem c6_issue_delete_changes_links_cex :
    (Issue.delete issue100 db6).issue_labels ≠ db6.issue_labels := by
  decide

/-- C6 amended: deleting an Issue directly removes the issues row with that
primary key id and also the issue_labels rows carrying that issue id (the
delete itself performs both statements); the repos, users and labels tables
are left unchanged. -/
theorem c6_issue_delete_frame_amended (db : Store) (i : Issue) :
    (∀ row : IssueRow, row ∈ (Issue.delete i db).issues
        ↔ row ∈ db.issues ∧ row.id ≠ i.id)
    ∧ (∀ lk : LinkRow, lk ∈ (Issue.delete i db).issue_labels
        ↔ lk ∈ db.issue_labels ∧ lk.issue_id ≠ i.id)
    ∧ (Issue.delete i db).repos = db.repos
    ∧ (Issue.delete i db).users = db.users
    ∧ (Issue.delete i db).labels = db.labels := by
  refine ⟨fun row => ?_, fun lk => ?_, rfl, rfl, rfl⟩
  · simp [Issue.delete, List.mem_filter]
  · simp [Issue.delete, List.mem_filter]

/-- C7 counterexample — the claim as stated is false on the code.  With an
empty labels table and a label-name filter, `fetch_issues` panics with the
label-not-found message rather than returning a NotFoundError. -/
theorem c7_label_missing_panics_cex :
    fetch_issues emptyStore args7 0 = Outcome.panicked (labelNotFoundMsg "bug")
    ∧ fetch_issues emptyStore args7 0 ≠ Outcome.err ErrorKind.notFoundError := by
  refine ⟨?_, ?_⟩ <;> decide

/-- C7 amended: whenever the label-name filter names a label absent from
the labels table, `fetch_issues` aborts by panic (the
`unwrap_or_else(panic!)` at main.rs line 517) with the label-not-found
message, instead of returning a recoverable error to the invoking
command. -/
theorem c7_label_missing_panics (db : Store) (args : FetchArgs) (t : Int) (name : String)
    (h1 : args.label_name = some name)
    (h2 : db.labels.find? (fun l => l.name = name) = none) :
    fetch_issues db args t = Outcome.panicked (labelNotFoundMsg name) := by
  have hq : queryFiltered db args t = none := by
    unfold queryFiltered
    rw [h1]
    simp [h2]
  simp [fetch_issues, queryRows, hq, h1]

/-- Witness for C7 at a concrete store and arguments. -/
theorem c7_label_missing_panics_witness :
    args7.label_name = some "bug"
    ∧ emptyStore.labels.find? (fun l => l.name = "bug") = none
    ∧ fetch_issues emptyStore args7 0 = Outcome.panicked (labelNotFoundMsg "bug") :=
  ⟨rfl, rfl, c7_label_missing_panics emptyStore args7 0 "bug" rfl rfl⟩

/-- C8: for a fixed filter set whose full ordered result is `l` and any
page size `P ≥ 1`, every page `k + 1` returns the window of `l` at offset
`k * P` of length at most `P`, the concatenation of pages `1 .. ceil (M/P)`
reproduces `l` exactly (each row once), and `l` is ordered by creation
timestamp descending. -/
theorem c8_pagination_determinism (db : Store) (args : FetchArgs) (t : Int)
    (l : List IssueRow) (P : Nat) (hq : queryRows db args t = some l) (hP : 1 ≤ P) :
    (∀ k, k < (l.length + P - 1) / P →
        fetch_issues db { args with page := k + 1, page_num := P } t
          = Outcome.ok ((l.drop (k * P)).take P))
    ∧ ((List.range ((l.length + P - 1) / P)).map fun k => (l.drop (k * P)).take P).flatten = l
    ∧ List.Sorted (fun a b => b.created_at ≤ a.created_at) l :=
  ⟨fun k _ => fetch_issues_page db args t l hq k P,
   join_chunks P hP l.length l le_rfl,
   queryRows_sorted hq⟩

/-- Witness for C8 on a three-row store with page size 2. -/
theorem c8_pagination_determinism_witness :
    queryRows db8 args8 0 = some [rowC, rowA, rowB]
    ∧ 1 ≤ 2
    ∧ ((∀ k, k < (([rowC, rowA, rowB] : List IssueRow).length + 2 - 1) / 2 →
          fetch_issues db8 { args8 with page := k + 1, page_num := 2 } 0
            = Outcome.ok ((([rowC, rowA, rowB] : List IssueRow).drop (k * 2)).take 2))
      ∧ ((List.range ((([rowC, rowA, rowB] : List IssueRow).length + 2 - 1) / 2)).map
            fun k => (([rowC, rowA, rowB] : List IssueRow).drop (k * 2)).take 2).flatten
          = [rowC, rowA, rowB]
      ∧ List.Sorted (fun a b => b.created_at ≤ a.created_at)
          [rowC, rowA, rowB]) :=
  ⟨by decide, by decide,
    c8_pagination_determinism db8 args8 0 [rowC, rowA, rowB] 2 (by decide) (by decide)⟩

/-- C9 counterexample — the claim as stated is false on the code: for an
issue with one attached label the actual write order upserts the
IssueLabelLink before the Label, not after it as the claim states. -/
theorem c9_insert_order_cex : Issue.insertTrace i9 ≠ Issue.specInsertTrace i9 := by
  decide

/-- C9 amended: inserting an Issue performs the writes in this order —
the Issue row, then the embedded User upsert, then for each embedded Label
the IssueLabelLink upsert followed by the Label upsert; and after the
compound insert completes, every attached label has its link row present
and a label row with its id present. -/
theorem c9_insert_order_amended (i : Issue) (db : Store) :
    Issue.insertTrace i
      = WriteOp.issueRow i.toRow :: WriteOp.userUp i.user.toRow ::
          i.labels.flatMap (fun l =>
            [WriteOp.linkUp { issue_id := i.id, label_id := l.id },
             WriteOp.labelUp l.storedRow])
    ∧ ∀ l ∈ i.labels,
        ({ issue_id := i.id, label_id := l.id } : LinkRow)
            ∈ (Issue.insert i db).issue_labels
        ∧ ∃ r ∈ (Issue.insert i db).labels, r.id = l.id := by
  constructor
  · rfl
  · intro l hl
    have h := labels_post i.id i.labels
      (applyOp (applyOp db (WriteOp.issueRow i.toRow)) (WriteOp.userUp i.user.toRow)) l hl
    exact h

/-- Witness for C9 on the one-label issue `i9`. -/
theorem c9_insert_order_amended_witness :
    label9 ∈ i9.labels
    ∧ (({ issue_id := i9.id, label_id := label9.id } : LinkRow)
          ∈ (Issue.insert i9 emptyStore).issue_labels
        ∧ ∃ r ∈ (Issue.insert i9 emptyStore).labels, r.id = label9.id) :=
  ⟨by decide, (c9_insert_order_amended i9 emptyStore).2 label9 (by decide)⟩

/-- C10 counterexample — the claim as stated is false on the code: the
claim asserts the offset computation is well-defined for every page ≥ 1,
but at the reachable CLI input page = 2^63 + 1, page_num = 4 the `usize`
multiplication `(page - 1) * page_num` overflows: a debug build panics
(modelled as `none`) and a release build wraps to an offset different from
(page - 1) * page_num. -/
theorem c10_offset_mul_overflow_cex :
    1 ≤ 2 ^ 63 + 1
    ∧ fetchOffsetUsize (2 ^ 63 + 1) 4 = none
    ∧ usizeMulWrap ((2 ^ 63 + 1) - 1) 4 ≠ ((2 ^ 63 + 1) - 1) * 4 := by
  refine ⟨?_, ?_, ?_⟩ <;> decide

/-- C10 amended: the offset computation `(page - 1) * page_num` operates
on `usize` — at page = 0 the checked subtraction underflows (no result; a
debug build panics) and the wrapping subtraction of a release build
produces 2^64 - 1 rather than a meaningful offset; for page ≥ 1 the
computation is well-defined exactly when the product (page - 1) * page_num
stays below 2^64 — there it equals (page - 1) * page_num and agrees with
the unbounded arithmetic the query model slices with — while for a product
of at least 2^64 the checked multiplication overflows and the wrapping one
produces a different offset. -/
theorem c10_offset_totality_domain :
    (∀ n : Nat, fetchOffsetUsize 0 n = none)
    ∧ usizeSubWrap 0 1 = 2 ^ 64 - 1
    ∧ (∀ page n : Nat, 1 ≤ page → (page - 1) * n < 2 ^ 64 →
        fetchOffsetUsize page n = some ((page - 1) * n)
        ∧ fetchOffset page n = some ((page - 1) * n))
    ∧ (∀ page n : Nat, 1 ≤ page → 2 ^ 64 ≤ (page - 1) * n →
        fetchOffsetUsize page n = none
        ∧ usizeMulWrap (page - 1) n ≠ (page - 1) * n) := by
  refine ⟨fun n => rfl, by decide, fun page n h1 h2 => ⟨?_, ?_⟩, fun page n h1 h2 => ⟨?_, ?_⟩⟩
  · simp only [fetchOffsetUsize, usizeSub, usizeMul, if_pos h1, Option.some_bind, if_pos h2]
  · simp [fetchOffset, usizeSub, h1]
  · have h3 : ¬ ((page - 1) * n < 2 ^ 64) := by omega
    simp only [fetchOffsetUsize, usizeSub, usizeMul, if_pos h1, Option.some_bind, if_neg h3]
  · have h4 : (page - 1) * n % 2 ^ 64 < 2 ^ 64 := Nat.mod_lt _ (by norm_num)
    simp only [usizeMulWrap]
    omega

/-- Witness for C10 on both sides of the overflow boundary: page 3 with
page size 10 is well-defined, page 2^63 + 1 with page size 4 overflows. -/
theorem c10_offset_totality_domain_witness :
    (1 ≤ 3 ∧ (3 - 1) * 10 < 2 ^ 64
      ∧ fetchOffsetUsize 3 10 = some ((3 - 1) * 10)
      ∧ fetchOffset 3 10 = some ((3 - 1) * 10))
    ∧ (1 ≤ 2 ^ 63 + 2 ∧ 2 ^ 64 ≤ ((2 ^ 63 + 2) - 1) * 4
      ∧ fetchOffsetUsize (2 ^ 63 + 2) 4 = none
      ∧ usizeMulWrap ((2 ^ 63 + 2) - 1) 4 ≠ ((2 ^ 63 + 2) - 1) * 4) :=
  ⟨⟨by decide, by decide,
    (c10_offset_totality_domain.2.2.1 3 10 (by decide) (by decide)).1,
    (c10_offset_totality_domain.2.2.1 3 10 (by decide) (by decide)).2⟩,
   ⟨by decide, by decide,
    (c10_offset_totality_domain.2.2.2 (2 ^ 63 + 2) 4 (by decide) (by decide)).1,
    (c10_offset_totality_domain.2.2.2 (2 ^ 63 + 2) 4 (by decide) (by decide)).2⟩⟩

end IssueHunter
